import Mathlib

/-! FirstModule: the Manual plugin

A shallow embedding of `Source/Manual` (ManualModule.h, ManualModule.cpp,
ManualExposed.h, ManualExposed.cpp) and the properties of its four operations:

* `FManualModule::StartupModule`, `FManualModule::ShutdownModule`
* the constructor `AManualExposed::AManualExposed`
* `AManualExposed::DoManualExposed`

The process log is an explicit list of entries inside a `World`; every C++ call
is a function from the receiver and the world to an `Outcome`: either the
receiver and world after the call, or the failure that ended it.
-/

set_option linter.unusedVariables false
set_option linter.dupNamespace false

namespace FirstModule

/-! ## The host's logging facility -/

/-- The engine's `ELogVerbosity::Type`, most severe first. -/
inductive ELogVerbosity where
  | NoLogging
  | Fatal
  | Error
  | Warning
  | Display
  | Log
  | Verbose
  | VeryVerbose
  deriving DecidableEq, Repr

namespace ELogVerbosity

/-- The numeric value of a verbosity level (`NoLogging = 0`, `Fatal = 1`, ...). -/
def toNat : ELogVerbosity → Nat
  | NoLogging => 0
  | Fatal => 1
  | Error => 2
  | Warning => 3
  | Display => 4
  | Log => 5
  | Verbose => 6
  | VeryVerbose => 7

/-- The engine's `ELogVerbosity::All` is an alias of `VeryVerbose`. -/
def All : ELogVerbosity := VeryVerbose

end ELogVerbosity

/-- A log category as `DECLARE_LOG_CATEGORY_EXTERN(Name, Default, CompileTime)`
declares it. -/
structure FLogCategory where
  CategoryName : String
  DefaultVerbosity : ELogVerbosity
  CompileTimeVerbosity : ELogVerbosity
  deriving DecidableEq, Repr

/-- ManualModule.h line 12 with ManualModule.cpp line 11:
`DECLARE_LOG_CATEGORY_EXTERN(LogManual, Log, All)` / `DEFINE_LOG_CATEGORY(LogManual)`. -/
def LogManual : FLogCategory := ⟨"LogManual", ELogVerbosity.Log, ELogVerbosity.All⟩

/-- AutoModule.h line 12: `DECLARE_LOG_CATEGORY_EXTERN(LogAuto, Log, All)`. -/
def LogAuto : FLogCategory := ⟨"LogAuto", ELogVerbosity.Log, ELogVerbosity.All⟩

/-- One line of the log: the channel (category name), the severity and the message. -/
structure LogEntry where
  channel : String
  severity : ELogVerbosity
  message : String
  deriving DecidableEq, Repr

/-- Everything an operation can observe or change outside its receiver: the log,
and `env`, the rest of the process state (of an arbitrary type `σ`). -/
structure World (σ : Type) where
  log : List LogEntry
  env : σ

/-- How a call can end abnormally: the process is brought down by a `Fatal` log
line, or something of type `ε` is thrown. -/
inductive Failure (ε : Type) where
  | fatalLog (entry : LogEntry)
  | raised (e : ε)

/-- The outcome of a C++ call: normal return with a value, or a failure. -/
abbrev Outcome (ε : Type) (α : Type) : Type := Except (Failure ε) α

/-- The log with one more entry at its end; nothing else changes. -/
def World.emit {σ : Type} (w : World σ) (e : LogEntry) : World σ :=
  { w with log := w.log ++ [e] }

/-- The engine's `UE_LOG(Category, Verbosity, TEXT(msg))`.  A `Fatal` line ends the
process.  Any other line is appended when its verbosity is real (not `NoLogging`),
is compiled in for the category and is not suppressed by the category's
verbosity threshold (the declared default); otherwise the statement has no effect. -/
def UE_LOG {σ ε : Type} (cat : FLogCategory) (v : ELogVerbosity) (msg : String)
    (w : World σ) : Outcome ε (World σ) :=
  if v = ELogVerbosity.Fatal then
    Except.error (Failure.fatalLog ⟨cat.CategoryName, v, msg⟩)
  else if 0 < v.toNat ∧ v.toNat ≤ cat.CompileTimeVerbosity.toNat
      ∧ v.toNat ≤ cat.DefaultVerbosity.toNat then
    Except.ok (w.emit ⟨cat.CategoryName, v, msg⟩)
  else
    Except.ok w

/-! ## ManualModule.h / ManualModule.cpp -/

/-- The class `FManualModule final : public IModuleInterface` (ManualModule.h lines
15-20): two overridden methods and no data member. -/
structure FManualModule where
  deriving DecidableEq, Repr

/-- ManualModule.cpp lines 16-19. -/
def FManualModule.StartupModule {σ ε : Type} (self : FManualModule) (w : World σ) :
    Outcome ε (FManualModule × World σ) := do
  let w1 ← UE_LOG LogManual ELogVerbosity.Warning "FManualModule::StartupModule()" w
  pure (self, w1)

/-- ManualModule.cpp lines 22-25. -/
def FManualModule.ShutdownModule {σ ε : Type} (self : FManualModule) (w : World σ) :
    Outcome ε (FManualModule × World σ) := do
  let w1 ← UE_LOG LogManual ELogVerbosity.Warning "FManualModule::ShutdownModule()" w
  pure (self, w1)

/-! ## ManualExposed.h / ManualExposed.cpp -/

/-- What ManualExposed.h takes from `AutoCppOnly.h`, a header that is not among the
sources: the helper type `H` (the C++ `FAutoCppOnly`) and its method
`DoAutoCppOnly`.  ManualExposed.cpp line 20 calls the method on a member of a
`const` object, so it is a `const` (or static) member function.  That qualifier
does not keep a C++ method from changing its receiver (a `mutable` member, a cast),
so the method hands back the helper as it leaves it, together with the world; its
behaviour is arbitrary: it may change the helper and the world in any way, or fail. -/
structure FAutoCppOnlyDecl (H σ ε : Type) where
  DoAutoCppOnly : H → World σ → Outcome ε (H × World σ)

/-- The class `AManualExposed : public AActor` (ManualExposed.h lines 15-27): the
base-class sub-object, of the engine's type `A`, and the one data member
`FAutoCppOnly AutoCppOnly`, held by value. -/
structure AManualExposed (A H : Type) where
  Super : A
  AutoCppOnly : H

/-- ManualExposed.cpp lines 11-14, the constructor body.  The base-class sub-object
and the member have been constructed before the body runs (by the engine and by
`FAutoCppOnly`, neither among the sources); they come in as `super` and `helper`.
`decl` is what the included `AutoCppOnly.h` declares, in scope throughout
ManualExposed.cpp; this body makes no use of it. -/
def AManualExposed.AManualExposed {A H σ ε : Type} (decl : FAutoCppOnlyDecl H σ ε)
    (super : A) (helper : H) (w : World σ) : Outcome ε (AManualExposed A H × World σ) := do
  let w1 ← UE_LOG LogManual ELogVerbosity.Warning "AManualExposed::AManualExposed()" w
  pure (⟨super, helper⟩, w1)

/-- ManualExposed.cpp lines 17-21, `void AManualExposed::DoManualExposed() const`.
The method is called on the member in place: afterwards the member is what the call
left of it; the body writes no other part of the entity. -/
def AManualExposed.DoManualExposed {A H σ ε : Type} (decl : FAutoCppOnlyDecl H σ ε)
    (self : FirstModule.AManualExposed A H) (w : World σ) :
    Outcome ε (FirstModule.AManualExposed A H × World σ) := do
  let w1 ← UE_LOG LogManual ELogVerbosity.Warning "AManualExposed::DoManualExposed()" w
  let r ← decl.DoAutoCppOnly self.AutoCppOnly w1
  pure (⟨self.Super, r.1⟩, r.2)

/-! ## Observations used to state the properties -/

/-- The entries a call appended: the log after the call without the `before.log.length`
entries it started from; `none` when the call failed. -/
def emitted {σ ε α : Type} (before : World σ) (r : Outcome ε (α × World σ)) :
    Option (List LogEntry) :=
  match r with
  | Except.ok p => some (p.2.log.drop before.log.length)
  | Except.error _ => none

/-- One operation called `n` times in a row, each call starting from the state the
previous one left; the first failure ends the sequence. -/
def callTimes {ε α : Type} (op : α → Outcome ε α) : Nat → α → Outcome ε α
  | 0, a => Except.ok a
  | n + 1, a => op a >>= callTimes op n

/-- The host's load/unload cycle on one module object: `StartupModule`, then
`ShutdownModule` on the state the startup left. -/
def startupThenShutdown {σ ε : Type} (m : FManualModule) (w : World σ) :
    Outcome ε (FManualModule × World σ) :=
  FManualModule.StartupModule m w >>= fun p => FManualModule.ShutdownModule p.1 p.2

/-- The entries of a log that are on a channel other than `channel`. -/
def offChannel (channel : String) (log : List LogEntry) : List LogEntry :=
  log.filter (fun e => e.channel != channel)

/-- The entries of a log that are on the channel `channel`. -/
def onChannel (channel : String) (log : List LogEntry) : List LogEntry :=
  log.filter (fun e => e.channel == channel)

/-- A helper whose method does nothing and returns. -/
def silentHelper (H σ ε : Type) : FAutoCppOnlyDecl H σ ε :=
  ⟨fun h w => Except.ok (h, w)⟩

/-- A helper whose method counts its invocations in the `Nat` environment. -/
def countingHelper (H ε : Type) : FAutoCppOnlyDecl H Nat ε :=
  ⟨fun h w => Except.ok (h, { w with env := w.env + 1 })⟩

/-- A helper whose method always fails by raising `e`. -/
def failingHelper (H σ : Type) {ε : Type} (e : ε) : FAutoCppOnlyDecl H σ ε :=
  ⟨fun _ _ => Except.error (Failure.raised e)⟩

/-! ## Basic facts about logging -/

/-- A `Warning` on `LogManual` is always appended: it is not fatal, and it passes both
verbosity thresholds of the category. -/
theorem UE_LOG_LogManual_Warning {σ ε : Type} (msg : String) (w : World σ) :
    (UE_LOG LogManual ELogVerbosity.Warning msg w : Outcome ε (World σ))
      = Except.ok (w.emit ⟨"LogManual", ELogVerbosity.Warning, msg⟩) := by
  simp [UE_LOG, LogManual, ELogVerbosity.toNat, ELogVerbosity.All]

/-- Closed form of `StartupModule`: it returns, with the module as it was and one
entry appended. -/
theorem StartupModule_eq {σ ε : Type} (m : FManualModule) (w : World σ) :
    (FManualModule.StartupModule m w : Outcome ε (FManualModule × World σ))
      = Except.ok (m, w.emit ⟨"LogManual", ELogVerbosity.Warning,
          "FManualModule::StartupModule()"⟩) := by
  simp only [FManualModule.StartupModule, UE_LOG_LogManual_Warning]
  rfl

/-- Closed form of `ShutdownModule`. -/
theorem ShutdownModule_eq {σ ε : Type} (m : FManualModule) (w : World σ) :
    (FManualModule.ShutdownModule m w : Outcome ε (FManualModule × World σ))
      = Except.ok (m, w.emit ⟨"LogManual", ELogVerbosity.Warning,
          "FManualModule::ShutdownModule()"⟩) := by
  simp only [FManualModule.ShutdownModule, UE_LOG_LogManual_Warning]
  rfl

/-- Closed form of the constructor body. -/
theorem AManualExposed_ctor_eq {A H σ ε : Type} (decl : FAutoCppOnlyDecl H σ ε)
    (super : A) (helper : H) (w : World σ) :
    AManualExposed.AManualExposed decl super helper w
      = Except.ok (⟨super, helper⟩, w.emit ⟨"LogManual", ELogVerbosity.Warning,
          "AManualExposed::AManualExposed()"⟩) := by
  simp only [AManualExposed.AManualExposed, UE_LOG_LogManual_Warning]
  rfl

/-- Closed form of `DoManualExposed`: the helper's method applied to the world with
the one entry appended; the entity handed back has the base sub-object it had and
the helper as the call left it. -/
theorem DoManualExposed_eq {A H σ ε : Type} (decl : FAutoCppOnlyDecl H σ ε)
    (self : AManualExposed A H) (w : World σ) :
    AManualExposed.DoManualExposed decl self w
      = (decl.DoAutoCppOnly self.AutoCppOnly
          (w.emit ⟨"LogManual", ELogVerbosity.Warning,
            "AManualExposed::DoManualExposed()"⟩)).map
          (fun r => (⟨self.Super, r.1⟩, r.2)) := by
  simp only [AManualExposed.DoManualExposed, UE_LOG_LogManual_Warning]
  show (decl.DoAutoCppOnly self.AutoCppOnly (w.emit _) >>=
    fun r => pure ((⟨self.Super, r.1⟩ : AManualExposed A H), r.2)) = _
  generalize decl.DoAutoCppOnly self.AutoCppOnly (w.emit _) = r
  cases r <;> rfl

/-- Emitting twice appends both entries, in order. -/
theorem emit_emit_log {σ : Type} (w : World σ) (a b : LogEntry) :
    ((w.emit a).emit b) = { w with log := w.log ++ [a, b] } := by
  simp [World.emit]

/-- The model of logging does have a failure path: a `Fatal` line never returns. -/
theorem UE_LOG_Fatal_fails {σ ε : Type} (cat : FLogCategory) (msg : String) (w : World σ) :
    (UE_LOG cat ELogVerbosity.Fatal msg w : Outcome ε (World σ))
      = Except.error (Failure.fatalLog ⟨cat.CategoryName, ELogVerbosity.Fatal, msg⟩) := by
  simp [UE_LOG]

/-- A line more verbose than the category's threshold is dropped: `Verbose` on
`LogManual` leaves the world as it was. -/
theorem UE_LOG_LogManual_Verbose_dropped {σ ε : Type} (msg : String) (w : World σ) :
    (UE_LOG LogManual ELogVerbosity.Verbose msg w : Outcome ε (World σ)) = Except.ok w := by
  simp [UE_LOG, LogManual, ELogVerbosity.toNat, ELogVerbosity.All]

/-- Entries on the channel itself do not show among the off-channel entries. -/
theorem offChannel_append_same (channel : String) (log : List LogEntry)
    (sev1 sev2 : ELogVerbosity) (msg1 msg2 : String) :
    offChannel channel (log ++ [⟨channel, sev1, msg1⟩, ⟨channel, sev2, msg2⟩])
      = offChannel channel log := by
  simp [offChannel]

/-! ## The Manual module's lifecycle -/

/-- C1: on any starting log, `StartupModule` followed by `ShutdownModule` returns and
appends exactly two entries, the startup line and then the shutdown line, both on
channel `LogManual`; nothing else is appended, the entries on other channels
(those of `LogAuto` among them) are the ones that were there before, and the rest
of the world is untouched. -/
theorem C1_startup_then_shutdown_two_lines {σ ε : Type} (m : FManualModule) (w : World σ) :
    (startupThenShutdown m w : Outcome ε (FManualModule × World σ))
        = Except.ok (m, ⟨w.log ++
            [⟨"LogManual", ELogVerbosity.Warning, "FManualModule::StartupModule()"⟩,
             ⟨"LogManual", ELogVerbosity.Warning, "FManualModule::ShutdownModule()"⟩],
            w.env⟩)
      ∧ emitted w (startupThenShutdown m w : Outcome ε (FManualModule × World σ))
        = some [⟨LogManual.CategoryName, ELogVerbosity.Warning, "FManualModule::StartupModule()"⟩,
                ⟨LogManual.CategoryName, ELogVerbosity.Warning, "FManualModule::ShutdownModule()"⟩]
      ∧ (startupThenShutdown m w : Outcome ε (FManualModule × World σ)).map
          (fun p => offChannel "LogManual" p.2.log)
        = Except.ok (offChannel "LogManual" w.log)
      ∧ (startupThenShutdown m w : Outcome ε (FManualModule × World σ)).map
          (fun p => onChannel LogAuto.CategoryName p.2.log)
        = Except.ok (onChannel LogAuto.CategoryName w.log) := by
  have h : (startupThenShutdown m w : Outcome ε (FManualModule × World σ))
        = Except.ok (m, ⟨w.log ++
            [⟨"LogManual", ELogVerbosity.Warning, "FManualModule::StartupModule()"⟩,
             ⟨"LogManual", ELogVerbosity.Warning, "FManualModule::ShutdownModule()"⟩],
            w.env⟩) := by
    unfold startupThenShutdown
    rw [StartupModule_eq]
    show FManualModule.ShutdownModule m _ = _
    rw [ShutdownModule_eq, emit_emit_log]
  refine ⟨h, ?_, ?_, ?_⟩
  · rw [h]
    simp [emitted, LogManual]
  · rw [h]
    simp [Except.map, offChannel_append_same]
  · rw [h]
    simp [Except.map, onChannel, LogAuto]

/-! ## The Manual entity -/

/-- C2: for every starting world, entity and helper behaviour, `DoManualExposed` is the
helper's `DoAutoCppOnly` run once on the world that has exactly the one entry
"AManualExposed::DoManualExposed()" on `LogManual` appended, and it returns what that
call leaves (of the world and of the helper).  With a helper that counts its
invocations the count goes up by exactly one; with a helper that does nothing the
one entry is all that is emitted. -/
theorem C2_DoManualExposed_logs_then_calls_helper_once {A H σ ε : Type}
    (decl : FAutoCppOnlyDecl H σ ε) (self : AManualExposed A H) (w : World σ) :
    AManualExposed.DoManualExposed decl self w
        = (decl.DoAutoCppOnly self.AutoCppOnly
            ⟨w.log ++ [⟨"LogManual", ELogVerbosity.Warning, "AManualExposed::DoManualExposed()"⟩],
             w.env⟩).map (fun r => (⟨self.Super, r.1⟩, r.2))
      ∧ (∀ (log : List LogEntry) (n : Nat),
          AManualExposed.DoManualExposed (countingHelper H ε) self ⟨log, n⟩
            = Except.ok (self,
                ⟨log ++ [⟨"LogManual", ELogVerbosity.Warning, "AManualExposed::DoManualExposed()"⟩],
                 n + 1⟩))
      ∧ emitted w (AManualExposed.DoManualExposed (silentHelper H σ ε) self w)
          = some [⟨LogManual.CategoryName, ELogVerbosity.Warning,
              "AManualExposed::DoManualExposed()"⟩] := by
  refine ⟨?_, ?_, ?_⟩
  · rw [DoManualExposed_eq]
    rfl
  · intro log n
    rw [DoManualExposed_eq]
    rfl
  · rw [DoManualExposed_eq]
    simp [emitted, silentHelper, Except.map, World.emit, LogManual]

/-- C3: the constructor body returns the entity built from its sub-objects and appends
exactly one entry, "AManualExposed::AManualExposed()" on `LogManual`.  The helper's
`DoAutoCppOnly` is not invoked: the result is the same for every helper behaviour, a
counting helper's count stays where it was, and a helper whose method always fails
does not make the construction fail. -/
theorem C3_constructor_logs_one_line {A H σ ε : Type}
    (decl : FAutoCppOnlyDecl H σ ε) (super : A) (helper : H) (w : World σ) :
    AManualExposed.AManualExposed decl super helper w
        = Except.ok (⟨super, helper⟩,
            ⟨w.log ++ [⟨"LogManual", ELogVerbosity.Warning, "AManualExposed::AManualExposed()"⟩],
             w.env⟩)
      ∧ emitted w (AManualExposed.AManualExposed decl super helper w)
          = some [⟨LogManual.CategoryName, ELogVerbosity.Warning,
              "AManualExposed::AManualExposed()"⟩]
      ∧ (∀ (log : List LogEntry) (n : Nat),
          AManualExposed.AManualExposed (countingHelper H ε) super helper ⟨log, n⟩
            = Except.ok (⟨super, helper⟩,
                ⟨log ++ [⟨"LogManual", ELogVerbosity.Warning, "AManualExposed::AManualExposed()"⟩],
                 n⟩))
      ∧ (∀ e : ε,
          AManualExposed.AManualExposed (failingHelper H σ e) super helper w
            = Except.ok (⟨super, helper⟩,
                ⟨w.log ++ [⟨"LogManual", ELogVerbosity.Warning, "AManualExposed::AManualExposed()"⟩],
                 w.env⟩)) := by
  refine ⟨?_, ?_, ?_, ?_⟩
  · rw [AManualExposed_ctor_eq]
    rfl
  · rw [AManualExposed_ctor_eq]
    simp [emitted, World.emit, LogManual]
  · intro log n
    rw [AManualExposed_ctor_eq]
    rfl
  · intro e
    rw [AManualExposed_ctor_eq]
    rfl

/-! ## Properties of all four operations -/

/-- C4: whatever the module value, the entity, the prior log and the rest of the world,
each of the four Manual operations emits the same single entry: channel `LogManual`,
severity `Warning`, and the operation's own constant message (for `DoManualExposed`:
the entry it emits itself, seen with a helper that emits nothing). -/
theorem C4_fixed_channel_severity_message {A H σ ε : Type} (m : FManualModule)
    (decl : FAutoCppOnlyDecl H σ ε) (super : A) (helper : H) (self : AManualExposed A H)
    (w : World σ) :
    emitted w (FManualModule.StartupModule m w : Outcome ε (FManualModule × World σ))
        = some [⟨LogManual.CategoryName, ELogVerbosity.Warning,
            "FManualModule::StartupModule()"⟩]
      ∧ emitted w (FManualModule.ShutdownModule m w : Outcome ε (FManualModule × World σ))
        = some [⟨LogManual.CategoryName, ELogVerbosity.Warning,
            "FManualModule::ShutdownModule()"⟩]
      ∧ emitted w (AManualExposed.AManualExposed decl super helper w)
        = some [⟨LogManual.CategoryName, ELogVerbosity.Warning,
            "AManualExposed::AManualExposed()"⟩]
      ∧ emitted w (AManualExposed.DoManualExposed (silentHelper H σ ε) self w)
        = some [⟨LogManual.CategoryName, ELogVerbosity.Warning,
            "AManualExposed::DoManualExposed()"⟩]
      ∧ AManualExposed.DoManualExposed decl self w
        = (decl.DoAutoCppOnly self.AutoCppOnly
            (w.emit ⟨LogManual.CategoryName, ELogVerbosity.Warning,
              "AManualExposed::DoManualExposed()"⟩)).map
            (fun r => (⟨self.Super, r.1⟩, r.2)) := by
  refine ⟨?_, ?_, ?_, ?_, ?_⟩
  · rw [StartupModule_eq]
    simp [emitted, World.emit, LogManual]
  · rw [ShutdownModule_eq]
    simp [emitted, World.emit, LogManual]
  · rw [AManualExposed_ctor_eq]
    simp [emitted, World.emit, LogManual]
  · rw [DoManualExposed_eq]
    simp [emitted, silentHelper, Except.map, World.emit, LogManual]
  · rw [DoManualExposed_eq]
    rfl

/-- C5: `StartupModule`, `ShutdownModule` and the constructor body return normally from
every state, with every helper behaviour.  `DoManualExposed` has no failure of its
own: its outcome, failure included, is the outcome of the helper's `DoAutoCppOnly`
on the world with the one entry appended, so it fails exactly when that call fails,
and with the same failure. -/
theorem C5_no_failure_path {A H σ ε : Type} (m : FManualModule)
    (decl : FAutoCppOnlyDecl H σ ε) (super : A) (helper : H) (self : AManualExposed A H)
    (w : World σ) :
    (FManualModule.StartupModule m w : Outcome ε (FManualModule × World σ)).isOk = true
      ∧ (FManualModule.ShutdownModule m w : Outcome ε (FManualModule × World σ)).isOk = true
      ∧ (AManualExposed.AManualExposed decl super helper w).isOk = true
      ∧ (AManualExposed.DoManualExposed decl self w).map (fun p => (p.1.AutoCppOnly, p.2))
        = decl.DoAutoCppOnly self.AutoCppOnly
            (w.emit ⟨"LogManual", ELogVerbosity.Warning, "AManualExposed::DoManualExposed()"⟩)
      ∧ (AManualExposed.DoManualExposed decl self w).isOk
        = (decl.DoAutoCppOnly self.AutoCppOnly
            (w.emit ⟨"LogManual", ELogVerbosity.Warning,
              "AManualExposed::DoManualExposed()"⟩)).isOk := by
  refine ⟨?_, ?_, ?_, ?_, ?_⟩
  · rw [StartupModule_eq]
    rfl
  · rw [ShutdownModule_eq]
    rfl
  · rw [AManualExposed_ctor_eq]
    rfl
  · rw [DoManualExposed_eq]
    cases decl.DoAutoCppOnly self.AutoCppOnly
      (w.emit ⟨"LogManual", ELogVerbosity.Warning, "AManualExposed::DoManualExposed()"⟩) <;> rfl
  · rw [DoManualExposed_eq]
    cases decl.DoAutoCppOnly self.AutoCppOnly
      (w.emit ⟨"LogManual", ELogVerbosity.Warning, "AManualExposed::DoManualExposed()"⟩) <;> rfl

/-! ## Repeated lifecycle calls -/

/-- An operation that returns with its receiver unchanged and one fixed entry appended,
called `n` times in a row, returns with that entry appended `n` times. -/
theorem callTimes_emit {σ ε α : Type} (op : α × World σ → Outcome ε (α × World σ))
    (e : LogEntry) (hop : ∀ a w, op (a, w) = Except.ok (a, w.emit e))
    (n : Nat) (a : α) (w : World σ) :
    callTimes op n (a, w) = Except.ok (a, ⟨w.log ++ List.replicate n e, w.env⟩) := by
  induction n generalizing w with
  | zero => simp [callTimes]
  | succ k ih =>
    show op (a, w) >>= callTimes op k = _
    rw [hop]
    show callTimes op k (a, w.emit e) = _
    rw [ih]
    simp [World.emit, List.replicate_succ]

/-- C6: `FManualModule` has no state (any two module values are equal) and no guard on
its lifecycle calls: for every `n`, `StartupModule` called `n` times in a row returns
with the startup entry appended exactly `n` times, and likewise `ShutdownModule`.
Two startups leave a log one entry longer than one startup does, so startup is not
idempotent on the log; and `ShutdownModule` on a log with no startup entry, the empty
log, still emits its line. -/
theorem C6_repeated_lifecycle_calls {σ ε : Type} (n : Nat) (m : FManualModule)
    (w : World σ) :
    (∀ m1 m2 : FManualModule, m1 = m2)
      ∧ callTimes (fun p => (FManualModule.StartupModule p.1 p.2 :
            Outcome ε (FManualModule × World σ))) n (m, w)
        = Except.ok (m, ⟨w.log ++ List.replicate n
            ⟨"LogManual", ELogVerbosity.Warning, "FManualModule::StartupModule()"⟩, w.env⟩)
      ∧ callTimes (fun p => (FManualModule.ShutdownModule p.1 p.2 :
            Outcome ε (FManualModule × World σ))) n (m, w)
        = Except.ok (m, ⟨w.log ++ List.replicate n
            ⟨"LogManual", ELogVerbosity.Warning, "FManualModule::ShutdownModule()"⟩, w.env⟩)
      ∧ (callTimes (fun p => (FManualModule.StartupModule p.1 p.2 :
            Outcome ε (FManualModule × World σ))) 2 (m, w)).map (fun p => p.2.log.length)
        = Except.ok (w.log.length + 2)
      ∧ (callTimes (fun p => (FManualModule.StartupModule p.1 p.2 :
            Outcome ε (FManualModule × World σ))) 1 (m, w)).map (fun p => p.2.log.length)
        = Except.ok (w.log.length + 1)
      ∧ callTimes (fun p => (FManualModule.StartupModule p.1 p.2 :
            Outcome ε (FManualModule × World σ))) 2 (m, w)
        ≠ callTimes (fun p => (FManualModule.StartupModule p.1 p.2 :
            Outcome ε (FManualModule × World σ))) 1 (m, w)
      ∧ (∀ env : σ,
          (FManualModule.ShutdownModule m ⟨[], env⟩ : Outcome ε (FManualModule × World σ))
            = Except.ok (m, ⟨[⟨"LogManual", ELogVerbosity.Warning,
                "FManualModule::ShutdownModule()"⟩], env⟩)) := by
  have hs := fun k => callTimes_emit
    (fun p => (FManualModule.StartupModule p.1 p.2 : Outcome ε (FManualModule × World σ)))
    ⟨"LogManual", ELogVerbosity.Warning, "FManualModule::StartupModule()"⟩
    (fun a v => StartupModule_eq a v) k m w
  have hd := callTimes_emit
    (fun p => (FManualModule.ShutdownModule p.1 p.2 : Outcome ε (FManualModule × World σ)))
    ⟨"LogManual", ELogVerbosity.Warning, "FManualModule::ShutdownModule()"⟩
    (fun a v => ShutdownModule_eq a v) n m w
  refine ⟨?_, hs n, hd, ?_, ?_, ?_, ?_⟩
  · intro m1 m2
    cases m1
    cases m2
    rfl
  · rw [hs 2]
    simp [Except.map]
  · rw [hs 1]
    simp [Except.map]
  · rw [hs 2, hs 1]
    intro h
    have hlen := congrArg (fun r => r.map (fun p => p.2.log.length)) h
    simp [Except.map] at hlen
  · intro env
    rw [ShutdownModule_eq]
    rfl

/-! ## The frame of `DoManualExposed` -/

end FirstModule
